import Mathlib

/-!
# Verification of the retail monthly report pipeline

Shallow embedding of `src/monthly_report/app.py` (repository
`gdg01720/retail_monthly_report`).

The program loads a spreadsheet of monthly retail records, filters them by
company group and a trailing 12-month window anchored at a user-chosen end
month, splits them by store scope (全店 / 既存店), pivots each subset by
company × raw period text with the year-over-year ratio summed per cell, and
sorts rows of each pivot by the value in the lexicographically largest period
column, descending.

Modelling conventions:
* a DataFrame row is a `Record`; the `対前年比` metric is `Option ℚ`
  (`none` = NaN / missing);
* timestamps are linear month indices (`Int`, `12 * year + (month - 1)`),
  matching the month granularity of the data; the library date parser
  `pd.to_datetime(..., errors='coerce')` is a parameter
  `parse : String → Option Int` of the pipeline, with a concrete instance
  `parseMonth` modelling its behaviour on year-month strings;
* `pd.crosstab(..., aggfunc='sum')` groups by raw `月次` text, sums the
  non-missing metric values of each (company, period) group (pandas sum of an
  all-NaN group is `0`), and leaves combinations absent from the data missing;
* `DataFrame.sort_values(col, ascending=False)` is modelled by
  `List.insertionSort` with a comparator that orders present values
  descending and places missing values last (`na_position='last'`).  The
  source uses the default `kind='quicksort'`, whose numpy argsort is not
  guaranteed stable beyond numpy's small-array insertion-sort threshold, so
  the order of rows with equal sort keys is not specified by the program;
  `List.insertionSort` is one deterministic admissible realization, and no
  theorem below depends on the tie order among equal keys (only on which
  keys may precede which, captured by `rowRel`).
-/

/-- One row of the input spreadsheet: 企業名, 月次 (raw text), 全店/既存店,
対前年比 (`none` when the cell is NaN / missing). -/
structure Record where
  company : String
  period : String
  scope : String
  yoy : Option ℚ
deriving DecidableEq, Repr

/-- A pivot table as produced by `create_pivot`: row labels (companies) in
display order, column labels (raw period texts) in ascending order, and the
cell contents (`none` = NaN). -/
structure Table where
  rows : List String
  cols : List String
  cell : String → String → Option ℚ

/-- The empty `pd.DataFrame()` returned for an empty subset. -/
def Table.empty : Table :=
  { rows := [], cols := [], cell := fun _ _ => none }

/-- Split a character list at every occurrence of `sep` (helper for
`parseMonth`). -/
def splitOnChar (sep : Char) : List Char → List (List Char)
  | [] => [[]]
  | c :: cs =>
    let rest := splitOnChar sep cs
    if c = sep then [] :: rest
    else
      match rest with
      | [] => [[c]]
      | g :: gs => (c :: g) :: gs

/-- Read a non-empty run of decimal digits as a number (helper for
`parseMonth`). -/
def digitsToNatAux : List Char → Nat → Option Nat
  | [], acc => some acc
  | c :: cs, acc =>
    if c.isDigit then digitsToNatAux cs (acc * 10 + (c.toNat - 48)) else none

/-- `digitsToNat? cs` is the numeric value of `cs` when `cs` is a non-empty
string of digits, otherwise `none`. -/
def digitsToNat? (cs : List Char) : Option Nat :=
  if cs.isEmpty then none else digitsToNatAux cs 0

/-- Modelled from the library call `pd.to_datetime(x, errors='coerce')`
(app.py line 55) restricted to the year-month strings this data uses:
`YYYY-MM`, `YYYY-M`, `YYYY/MM`, `YYYY/M` parse to the linear month index
`12 * year + (month - 1)`; anything else is `NaT` (`none`).  In particular,
as with pandas, `2024-1` and `2024-01` denote the same calendar month. -/
def parseMonth (s : String) : Option Int :=
  let cs := s.data
  let parts := if cs.contains '-' then splitOnChar '-' cs else splitOnChar '/' cs
  match parts with
  | [y, m] =>
    match digitsToNat? y, digitsToNat? m with
    | some yn, some mn =>
      if 1 ≤ mn ∧ mn ≤ 12 then some (12 * (yn : Int) + ((mn : Int) - 1))
      else none
    | _, _ => none
  | _ => none

/-- Lines 54–63 of `process_and_filter`: keep records whose 企業名 is in the
selected group (`isin`), drop records whose 月次 fails to parse
(`to_datetime(errors='coerce')` + `dropna(subset=['dt'])`), and keep the
trailing window `start_dt <= dt <= latest_dt` with
`start_dt = latest_dt - DateOffset(months=12)`.  `latest_dt` is the parsed
end month (the source parses `end_month_str`, a valid `%Y-%m` string chosen
from the data's own months). -/
def filteredRecords (parse : String → Option Int) (df : List Record)
    (companies : List String) (latest_dt : Int) : List Record :=
  let df1 := df.filter (fun r => companies.contains r.company)
  let df2 := df1.filter (fun r => (parse r.period).isSome)
  let start_dt := latest_dt - 12
  df2.filter (fun r =>
    match parse r.period with
    | some m => decide (start_dt ≤ m) && decide (m ≤ latest_dt)
    | none => false)

/-- Lexicographic comparison of character lists by code point, with a
proper prefix ordered first — the comparison Python uses on strings. -/
def listCharLe : List Char → List Char → Bool
  | [], _ => true
  | _ :: _, [] => false
  | a :: as, b :: bs => if a = b then listCharLe as bs else decide (a < b)

/-- Python's `<=` on strings (code-point lexicographic), as a decidable,
kernel-computable relation. -/
def strLe (a b : String) : Prop :=
  listCharLe a.data b.data = true

instance : DecidableRel strLe :=
  fun _ _ => instDecidableEqBool _ _

/-- Ascending, duplicate-free listing of labels: pandas sorts both the row
index and the columns of a crosstab ascending. -/
def sortedUnique (l : List String) : List String :=
  List.insertionSort strLe l.dedup

/-- One cell of `pd.crosstab(sub_df['企業名'], sub_df['月次'],
values=sub_df['対前年比'], aggfunc='sum')`: missing (`NaN`) when no record of
the subset has this company and raw period text, otherwise the sum of the
group's non-missing metric values (pandas `sum` skips NaN and returns `0`
for an all-NaN group). -/
def pivotCell (sub : List Record) (c p : String) : Option ℚ :=
  let grp := sub.filter (fun r => r.company == c && r.period == p)
  if grp.isEmpty then none else some (grp.filterMap Record.yoy).sum

/-- `cols = sorted(pivot.columns, reverse=True); cols[0]` (app.py lines
78–80): the head of the descending sort of the column labels, i.e. the
lexicographically largest raw period text present. -/
def latestCol (sub : List Record) : Option String :=
  (List.insertionSort (fun a b : String => strLe b a)
    (sortedUnique (sub.map Record.period))).head?

/-- Row comparator of `pivot.sort_values(cols[0], ascending=False)`:
`a` may precede `b` when `a`'s key is at least `b`'s, with missing keys
placed after every present key (`na_position='last'`). -/
def rowLe (key : String → Option ℚ) (a b : String) : Bool :=
  match key a, key b with
  | some x, some y => decide (y ≤ x)
  | some _, none => true
  | none, some _ => false
  | none, none => true

/-- `rowLe` as a relation, for `List.insertionSort`. -/
def rowRel (key : String → Option ℚ) (a b : String) : Prop :=
  rowLe key a b = true

instance (key : String → Option ℚ) : DecidableRel (rowRel key) :=
  fun _ _ => instDecidableEqBool _ _

instance : DecidableRel (fun a b : String => strLe b a) :=
  fun _ _ => instDecidableEqBool _ _

/-- `create_pivot` (app.py lines 71–81): empty `DataFrame` for an empty
subset; otherwise the crosstab of company × raw period text with summed
metric values, rows sorted by the lexicographically largest column,
descending, missing values last.  The source's sort kind (`quicksort`) does
not specify the order of rows with equal sort keys; the model picks
`List.insertionSort` as one admissible realization, and no theorem in this
file relies on its tie order. -/
def create_pivot (sub : List Record) : Table :=
  if sub.isEmpty then Table.empty
  else
    { rows :=
        match latestCol sub with
        | none => sortedUnique (sub.map Record.company)
        | some c =>
            List.insertionSort (rowRel (fun a => pivotCell sub a c))
              (sortedUnique (sub.map Record.company))
      cols := sortedUnique (sub.map Record.period)
      cell := pivotCell sub }

/-- The records feeding the all-store table:
`df[df['全店/既存店'] == '全店']` of the filtered frame (app.py line 83). -/
def subAll (parse : String → Option Int) (df : List Record)
    (companies : List String) (latest_dt : Int) : List Record :=
  (filteredRecords parse df companies latest_dt).filter (fun r => r.scope == "全店")

/-- The records feeding the existing-store table:
`df[df['全店/既存店'] == '既存店']` of the filtered frame (app.py line 84). -/
def subKison (parse : String → Option Int) (df : List Record)
    (companies : List String) (latest_dt : Int) : List Record :=
  (filteredRecords parse df companies latest_dt).filter (fun r => r.scope == "既存店")

/-- `process_and_filter` (app.py lines 50–86): filter, split by scope, pivot
each subset; returns `(table_all, table_kison)`. -/
def process_and_filter (parse : String → Option Int) (df : List Record)
    (companies : List String) (latest_dt : Int) : Table × Table :=
  (create_pivot (subAll parse df companies latest_dt),
   create_pivot (subKison parse df companies latest_dt))

/-- `load_latest_data` (app.py lines 30–48) over an abstract filesystem:
`dirExists` models `os.path.exists("data")`, `dirFiles` the directory
listing, `read` models `pd.read_excel`.  Returns `None` when the data
directory is missing or holds no `.xlsx` file. -/
def load_latest_data (dirExists : Bool) (dirFiles : List String)
    (read : String → List Record) : Option (List Record) :=
  if !dirExists then none
  else
    let files := dirFiles.filter (fun f => f.endsWith ".xlsx")
    if files.isEmpty then none
    else if dirFiles.contains "retail_data.xlsx" then some (read "data/retail_data.xlsx")
    else some (read ("data/" ++ files.headD ""))

/-- The names bound at module level in app.py before the `else` branch of
`if df_raw is not None` runs: imports, `GROUPS`, the four functions, and
`df_raw` itself.  `file_path_input` is not among them. -/
def module_level_names : List String :=
  ["st", "pd", "plt", "sns", "io", "os", "base64", "datetime", "GROUPS",
   "load_latest_data", "process_and_filter", "create_chart",
   "get_html_report", "df_raw"]

/-- Evaluating a Python f-string interpolation `{v}`: the name `v` must be
bound in the enclosing scope, otherwise a `NameError` is raised. -/
def fstring_lookup (names : List String) (v : String) : Except String String :=
  if names.contains v then Except.ok v
  else Except.error ("NameError: name " ++ v ++ " is not defined")

/-- The module-level `else` branch (app.py lines 193–195):
`st.error(f"ファイルが見つかりません: \x7bfile_path_input\x7d")`.  The f-string is
evaluated before `st.error` is called, so the branch first looks up
`file_path_input` in the module scope. -/
def module_else_branch : Except String String :=
  (fstring_lookup module_level_names "file_path_input").map
    (fun v => "ファイルが見つかりません: " ++ v)

/-- The module-level `if df_raw is not None` dispatch (app.py lines
128–195): when data was loaded the pipeline runs on it; when loading
returned `None` the pipeline is never invoked and the `else` branch runs. -/
def main_flow (df_raw : Option (List Record)) (companies : List String)
    (latest_dt : Int) : Except String (Option (Table × Table)) :=
  match df_raw with
  | some df => Except.ok (some (process_and_filter parseMonth df companies latest_dt))
  | none => module_else_branch.map (fun _ => none)

/-! ## Basic lemmas about the embedded operations -/

instance (key : String → Option ℚ) : IsTotal String (rowRel key) where
  total a b := by
    unfold rowRel rowLe
    cases key a <;> cases key b <;> simp
    exact le_total _ _

instance (key : String → Option ℚ) : IsTrans String (rowRel key) where
  trans a b c hab hbc := by
    unfold rowRel rowLe at hab hbc ⊢
    cases hka : key a <;> cases hkb : key b <;> cases hkc : key c <;> simp_all
    exact le_trans hbc hab

theorem listCharLe_refl : ∀ as, listCharLe as as = true
  | [] => rfl
  | a :: as => by simp [listCharLe, listCharLe_refl as]

theorem listCharLe_total : ∀ as bs, listCharLe as bs = true ∨ listCharLe bs as = true
  | [], _ => Or.inl rfl
  | _ :: _, [] => Or.inr rfl
  | a :: as, b :: bs => by
    by_cases hab : a = b
    · subst hab
      simpa [listCharLe] using listCharLe_total as bs
    · rcases lt_trichotomy a b with h | h | h
      · exact Or.inl (by simp [listCharLe, hab, h])
      · exact absurd h hab
      · exact Or.inr (by simp [listCharLe, Ne.symm hab, h])

theorem listCharLe_trans :
    ∀ as bs cs, listCharLe as bs = true → listCharLe bs cs = true →
      listCharLe as cs = true
  | [], _, _, _, _ => rfl
  | a :: as, [], cs, h₁, _ => by cases h₁
  | a :: as, b :: bs, [], _, h₂ => by cases h₂
  | a :: as, b :: bs, c :: cs, h₁, h₂ => by
    by_cases hab : a = b <;> by_cases hbc : b = c
    · subst hab; subst hbc
      simp only [listCharLe, if_pos rfl] at h₁ h₂ ⊢
      exact listCharLe_trans as bs cs h₁ h₂
    · subst hab
      simpa [listCharLe, hbc] using h₂
    · subst hbc
      simpa [listCharLe, hab] using h₁
    · simp only [listCharLe, if_neg hab] at h₁
      simp only [listCharLe, if_neg hbc] at h₂
      have hac : a < c := lt_trans (of_decide_eq_true h₁) (of_decide_eq_true h₂)
      simp [listCharLe, ne_of_lt hac, hac]

instance : IsTotal String strLe where
  total a b := listCharLe_total a.data b.data

instance : IsTrans String strLe where
  trans _ _ _ h₁ h₂ := listCharLe_trans _ _ _ h₁ h₂

instance : IsTotal String (fun a b : String => strLe b a) where
  total a b := listCharLe_total b.data a.data

instance : IsTrans String (fun a b : String => strLe b a) where
  trans _ _ _ h₁ h₂ := listCharLe_trans _ _ _ h₂ h₁

theorem mem_sortedUnique {l : List String} {a : String} :
    a ∈ sortedUnique l ↔ a ∈ l := by
  unfold sortedUnique
  rw [List.mem_insertionSort, List.mem_dedup]

theorem mem_filteredRecords {parse : String → Option Int} {df : List Record}
    {cs : List String} {e : Int} {r : Record} :
    r ∈ filteredRecords parse df cs e ↔
      r ∈ df ∧ r.company ∈ cs ∧
        ∃ m, parse r.period = some m ∧ e - 12 ≤ m ∧ m ≤ e := by
  unfold filteredRecords
  simp only [List.mem_filter, Bool.and_eq_true, decide_eq_true_eq]
  constructor
  · rintro ⟨⟨⟨hdf, hcs⟩, -⟩, hwin⟩
    refine ⟨hdf, by simpa using hcs, ?_⟩
    rcases hp : parse r.period with - | m
    · rw [hp] at hwin; cases hwin
    · rw [hp] at hwin
      simp only [Bool.and_eq_true, decide_eq_true_eq] at hwin
      exact ⟨m, rfl, hwin.1, hwin.2⟩
  · rintro ⟨hdf, hcs, m, hm, h1, h2⟩
    refine ⟨⟨⟨hdf, by simpa using hcs⟩, by simp [hm]⟩, ?_⟩
    rw [hm]
    simp [h1, h2]

theorem mem_subAll {parse : String → Option Int} {df : List Record}
    {cs : List String} {e : Int} {r : Record} :
    r ∈ subAll parse df cs e ↔
      r ∈ filteredRecords parse df cs e ∧ r.scope = "全店" := by
  unfold subAll
  simp [List.mem_filter]

theorem mem_subKison {parse : String → Option Int} {df : List Record}
    {cs : List String} {e : Int} {r : Record} :
    r ∈ subKison parse df cs e ↔
      r ∈ filteredRecords parse df cs e ∧ r.scope = "既存店" := by
  unfold subKison
  simp [List.mem_filter]

theorem mem_rows_create_pivot {sub : List Record} {a : String} :
    a ∈ (create_pivot sub).rows ↔ ∃ r ∈ sub, r.company = a := by
  unfold create_pivot
  by_cases hs : sub.isEmpty
  · rw [if_pos hs]
    rw [List.isEmpty_iff] at hs
    subst hs
    simp [Table.empty]
  · rw [if_neg hs]
    cases h : latestCol sub <;>
      simp [List.mem_insertionSort, mem_sortedUnique, List.mem_map, eq_comm]

theorem mem_cols_create_pivot {sub : List Record} {p : String} :
    p ∈ (create_pivot sub).cols ↔ ∃ r ∈ sub, r.period = p := by
  unfold create_pivot
  by_cases hs : sub.isEmpty
  · rw [if_pos hs]
    rw [List.isEmpty_iff] at hs
    subst hs
    simp [Table.empty]
  · rw [if_neg hs]
    simp [mem_sortedUnique, List.mem_map, eq_comm]

theorem cell_create_pivot (sub : List Record) (c p : String) :
    (create_pivot sub).cell c p = pivotCell sub c p := by
  unfold create_pivot
  by_cases hs : sub.isEmpty
  · rw [if_pos hs]
    rw [List.isEmpty_iff] at hs
    subst hs
    rfl
  · rw [if_neg hs]

theorem latestCol_nil : latestCol [] = none := rfl

theorem isEmpty_false_of_latestCol {sub : List Record} {c : String}
    (h : latestCol sub = some c) : sub.isEmpty = false := by
  cases sub with
  | nil => rw [latestCol_nil] at h; cases h
  | cons a t => rfl

theorem rows_create_pivot_of_latestCol {sub : List Record} {c : String}
    (h : latestCol sub = some c) :
    (create_pivot sub).rows =
      List.insertionSort (rowRel (fun a => pivotCell sub a c))
        (sortedUnique (sub.map Record.company)) := by
  unfold create_pivot
  rw [isEmpty_false_of_latestCol h]
  simp [h]

theorem rows_pairwise_of_latestCol {sub : List Record} {c : String}
    (h : latestCol sub = some c) :
    ((create_pivot sub).rows).Pairwise (rowRel (fun a => pivotCell sub a c)) := by
  rw [rows_create_pivot_of_latestCol h]
  exact List.sorted_insertionSort _ _

theorem latestCol_spec {sub : List Record} {c : String}
    (h : latestCol sub = some c) :
    c ∈ sortedUnique (sub.map Record.period) ∧
      ∀ q ∈ sortedUnique (sub.map Record.period), strLe q c := by
  unfold latestCol at h
  set l := sortedUnique (sub.map Record.period) with hl
  set s := List.insertionSort (fun a b : String => strLe b a) l with hs
  have hsorted : s.Pairwise (fun a b : String => strLe b a) :=
    List.sorted_insertionSort _ _
  cases hse : s with
  | nil => rw [hse] at h; cases h
  | cons hd tl =>
    rw [hse] at h
    have hhd : hd = c := by simpa using h
    subst hhd
    rw [hse] at hsorted
    constructor
    · have : hd ∈ s := by rw [hse]; exact List.mem_cons_self _ _
      rw [hs] at this
      exact (List.mem_insertionSort _).mp this
    · intro q hq
      have hqs : q ∈ s := by rw [hs]; exact (List.mem_insertionSort _).mpr hq
      rw [hse] at hqs
      rcases List.mem_cons.mp hqs with rfl | hqt
      · exact listCharLe_refl _
      · exact (List.pairwise_cons.mp hsorted).1 q hqt

theorem filteredRecords_append (parse : String → Option Int) (a b : List Record)
    (cs : List String) (e : Int) :
    filteredRecords parse (a ++ b) cs e
      = filteredRecords parse a cs e ++ filteredRecords parse b cs e := by
  unfold filteredRecords
  simp [List.filter_append]

theorem filteredRecords_singleton_unparsable {parse : String → Option Int}
    {r : Record} (cs : List String) (e : Int) (h : parse r.period = none) :
    filteredRecords parse [r] cs e = [] := by
  unfold filteredRecords
  by_cases hc : cs.contains r.company <;> simp [List.filter_cons, hc, h]

/-! ## Claims -/

/-- C1: every record contributing to either output table of
`process_and_filter` has a period that parses to a month `m` with
`latest_dt - 12 ≤ m ≤ latest_dt`, both bounds inclusive; in particular
records with periods after the end month never contribute. -/
theorem claim_C1_window (parse : String → Option Int) (df : List Record)
    (cs : List String) (e : Int) (r : Record)
    (h : r ∈ subAll parse df cs e ∨ r ∈ subKison parse df cs e) :
    ∃ m, parse r.period = some m ∧ e - 12 ≤ m ∧ m ≤ e := by
  have hf : r ∈ filteredRecords parse df cs e := by
    rcases h with h | h
    · exact (mem_subAll.mp h).1
    · exact (mem_subKison.mp h).1
  exact (mem_filteredRecords.mp hf).2.2

/-- C1 witness: a concrete surviving record and its month bounds. -/
theorem claim_C1_window_witness :
    ((⟨"A", "2024-01", "全店", some 100⟩ : Record) ∈
        subAll parseMonth [⟨"A", "2024-01", "全店", some 100⟩] ["A"] 24288 ∨
      (⟨"A", "2024-01", "全店", some 100⟩ : Record) ∈
        subKison parseMonth [⟨"A", "2024-01", "全店", some 100⟩] ["A"] 24288) ∧
    ∃ m, parseMonth "2024-01" = some m ∧ 24288 - 12 ≤ m ∧ m ≤ 24288 :=
  ⟨Or.inl (by decide),
   claim_C1_window parseMonth [⟨"A", "2024-01", "全店", some 100⟩] ["A"] 24288
     ⟨"A", "2024-01", "全店", some 100⟩ (Or.inl (by decide))⟩

/-- C2: the rows of each output table are exactly the companies of the
selected set with at least one window-surviving record of the table's scope,
and the columns are exactly the periods present in that filtered subset
(regardless of whether the metric values are missing). -/
theorem claim_C2_rows_cols (parse : String → Option Int) (df : List Record)
    (cs : List String) (e : Int) (a p : String) :
    (a ∈ (process_and_filter parse df cs e).1.rows ↔
        a ∈ cs ∧ ∃ r ∈ filteredRecords parse df cs e,
          r.scope = "全店" ∧ r.company = a) ∧
    (p ∈ (process_and_filter parse df cs e).1.cols ↔
        ∃ r ∈ filteredRecords parse df cs e, r.scope = "全店" ∧ r.period = p) ∧
    (a ∈ (process_and_filter parse df cs e).2.rows ↔
        a ∈ cs ∧ ∃ r ∈ filteredRecords parse df cs e,
          r.scope = "既存店" ∧ r.company = a) ∧
    (p ∈ (process_and_filter parse df cs e).2.cols ↔
        ∃ r ∈ filteredRecords parse df cs e, r.scope = "既存店" ∧ r.period = p) := by
  refine ⟨?_, ?_, ?_, ?_⟩
  · show a ∈ (create_pivot (subAll parse df cs e)).rows ↔ _
    rw [mem_rows_create_pivot]
    constructor
    · rintro ⟨r, hr, rfl⟩
      have hm := mem_subAll.mp hr
      exact ⟨(mem_filteredRecords.mp hm.1).2.1, r, hm.1, hm.2, rfl⟩
    · rintro ⟨-, r, hr, hsc, rfl⟩
      exact ⟨r, mem_subAll.mpr ⟨hr, hsc⟩, rfl⟩
  · show p ∈ (create_pivot (subAll parse df cs e)).cols ↔ _
    rw [mem_cols_create_pivot]
    constructor
    · rintro ⟨r, hr, rfl⟩
      have hm := mem_subAll.mp hr
      exact ⟨r, hm.1, hm.2, rfl⟩
    · rintro ⟨r, hr, hsc, rfl⟩
      exact ⟨r, mem_subAll.mpr ⟨hr, hsc⟩, rfl⟩
  · show a ∈ (create_pivot (subKison parse df cs e)).rows ↔ _
    rw [mem_rows_create_pivot]
    constructor
    · rintro ⟨r, hr, rfl⟩
      have hm := mem_subKison.mp hr
      exact ⟨(mem_filteredRecords.mp hm.1).2.1, r, hm.1, hm.2, rfl⟩
    · rintro ⟨-, r, hr, hsc, rfl⟩
      exact ⟨r, mem_subKison.mpr ⟨hr, hsc⟩, rfl⟩
  · show p ∈ (create_pivot (subKison parse df cs e)).cols ↔ _
    rw [mem_cols_create_pivot]
    constructor
    · rintro ⟨r, hr, rfl⟩
      have hm := mem_subKison.mp hr
      exact ⟨r, hm.1, hm.2, rfl⟩
    · rintro ⟨r, hr, hsc, rfl⟩
      exact ⟨r, mem_subKison.mpr ⟨hr, hsc⟩, rfl⟩

/-- C6: when every record carries one of the two scope values, the two
pivot sources partition the group- and window-filtered record set: their
concatenation is a permutation of it and no record lies in both. -/
theorem claim_C6_scope_partition (parse : String → Option Int)
    (df : List Record) (cs : List String) (e : Int)
    (h : ∀ r ∈ df, r.scope = "全店" ∨ r.scope = "既存店") :
    List.Perm (subAll parse df cs e ++ subKison parse df cs e)
      (filteredRecords parse df cs e) ∧
    ∀ r : Record, ¬ (r ∈ subAll parse df cs e ∧ r ∈ subKison parse df cs e) := by
  constructor
  · have hk : subKison parse df cs e
        = (filteredRecords parse df cs e).filter
            (fun r => !(r.scope == "全店")) := by
      unfold subKison
      refine List.filter_congr ?_
      intro r hr
      rcases h r (mem_filteredRecords.mp hr).1 with h1 | h1 <;> rw [h1] <;> decide
    unfold subAll
    rw [hk]
    exact List.filter_append_perm _ _
  · rintro r ⟨h1, h2⟩
    have e1 := (mem_subAll.mp h1).2
    have e2 := (mem_subKison.mp h2).2
    have : ("全店" : String) = "既存店" := e1.symm.trans e2
    exact absurd this (by decide)

/-- C6 witness at a two-record input carrying both scopes. -/
theorem claim_C6_scope_partition_witness :
    List.Perm
      (subAll parseMonth
          [⟨"A", "2024-01", "全店", some 100⟩, ⟨"B", "2024-01", "既存店", some 90⟩]
          ["A", "B"] 24288 ++
        subKison parseMonth
          [⟨"A", "2024-01", "全店", some 100⟩, ⟨"B", "2024-01", "既存店", some 90⟩]
          ["A", "B"] 24288)
      (filteredRecords parseMonth
        [⟨"A", "2024-01", "全店", some 100⟩, ⟨"B", "2024-01", "既存店", some 90⟩]
        ["A", "B"] 24288) ∧
    ¬ ((⟨"A", "2024-01", "全店", some 100⟩ : Record) ∈
        subAll parseMonth
          [⟨"A", "2024-01", "全店", some 100⟩, ⟨"B", "2024-01", "既存店", some 90⟩]
          ["A", "B"] 24288 ∧
      (⟨"A", "2024-01", "全店", some 100⟩ : Record) ∈
        subKison parseMonth
          [⟨"A", "2024-01", "全店", some 100⟩, ⟨"B", "2024-01", "既存店", some 90⟩]
          ["A", "B"] 24288) := by
  have h := claim_C6_scope_partition parseMonth
    [⟨"A", "2024-01", "全店", some 100⟩, ⟨"B", "2024-01", "既存店", some 90⟩]
    ["A", "B"] 24288 (by decide)
  exact ⟨h.1, h.2 _⟩

/-- C7: a record whose period fails to parse is silently dropped (the
pipeline is a total function, no exception path), and the output tables are
identical to those computed with the malformed record absent. -/
theorem claim_C7_malformed (parse : String → Option Int)
    (l₁ l₂ : List Record) (rbad : Record) (cs : List String) (e : Int)
    (h : parse rbad.period = none) :
    process_and_filter parse (l₁ ++ rbad :: l₂) cs e
      = process_and_filter parse (l₁ ++ l₂) cs e := by
  have hfr : filteredRecords parse (l₁ ++ rbad :: l₂) cs e
      = filteredRecords parse (l₁ ++ l₂) cs e := by
    have h1 : filteredRecords parse (l₁ ++ rbad :: l₂) cs e
        = filteredRecords parse l₁ cs e ++
          (filteredRecords parse [rbad] cs e ++ filteredRecords parse l₂ cs e) := by
      rw [← filteredRecords_append parse [rbad] l₂ cs e]
      exact filteredRecords_append parse l₁ ([rbad] ++ l₂) cs e
    rw [h1, filteredRecords_singleton_unparsable cs e h, List.nil_append,
      ← filteredRecords_append parse l₁ l₂ cs e]
  unfold process_and_filter subAll subKison
  rw [hfr]

/-- C7 witness: dropping the record with period `invalid-date` leaves the
pipeline output unchanged. -/
theorem claim_C7_malformed_witness :
    parseMonth "invalid-date" = none ∧
    process_and_filter parseMonth
        ([⟨"A", "2024-01", "全店", some 100⟩] ++
          ⟨"C", "invalid-date", "全店", some 50⟩ ::
            [⟨"B", "2024-01", "既存店", some 90⟩])
        ["A", "B", "C"] 24288
      = process_and_filter parseMonth
          ([⟨"A", "2024-01", "全店", some 100⟩] ++
            [⟨"B", "2024-01", "既存店", some 90⟩])
          ["A", "B", "C"] 24288 :=
  ⟨rfl,
   claim_C7_malformed parseMonth [⟨"A", "2024-01", "全店", some 100⟩]
     [⟨"B", "2024-01", "既存店", some 90⟩] ⟨"C", "invalid-date", "全店", some 50⟩
     ["A", "B", "C"] 24288 rfl⟩

/-- C8: an empty record set yields two well-formed empty tables; a company
set sharing no company with the records yields two empty tables; and a
scope whose subset is empty yields an empty table for that scope.  No error
path exists (the pipeline is total). -/
theorem claim_C8_empty (parse : String → Option Int) (df : List Record)
    (cs : List String) (e : Int) :
    process_and_filter parse [] cs e = (Table.empty, Table.empty) ∧
    ((∀ r ∈ df, r.company ∉ cs) →
      process_and_filter parse df cs e = (Table.empty, Table.empty)) ∧
    (subAll parse df cs e = [] →
      (process_and_filter parse df cs e).1 = Table.empty) ∧
    (subKison parse df cs e = [] →
      (process_and_filter parse df cs e).2 = Table.empty) := by
  refine ⟨rfl, ?_, ?_, ?_⟩
  · intro h
    have hfr : filteredRecords parse df cs e = [] := by
      unfold filteredRecords
      have h1 : df.filter (fun r => cs.contains r.company) = [] :=
        List.filter_eq_nil_iff.mpr (fun r hr => by simpa using h r hr)
      rw [h1]
      rfl
    unfold process_and_filter subAll subKison
    rw [hfr]
    rfl
  · intro h
    show create_pivot (subAll parse df cs e) = Table.empty
    rw [h]
    rfl
  · intro h
    show create_pivot (subKison parse df cs e) = Table.empty
    rw [h]
    rfl

/-- C8 witness: the empty input and a disjoint company set, both yielding
two empty tables. -/
theorem claim_C8_empty_witness :
    process_and_filter parseMonth [] ["A"] 24288 = (Table.empty, Table.empty) ∧
    process_and_filter parseMonth [⟨"Z", "2024-01", "全店", some 1⟩] ["A"] 24288
      = (Table.empty, Table.empty) :=
  ⟨(claim_C8_empty parseMonth [] ["A"] 24288).1,
   (claim_C8_empty parseMonth [⟨"Z", "2024-01", "全店", some 1⟩] ["A"] 24288).2.1
     (by decide)⟩

theorem create_pivot_le_pairwise {sub : List Record} {c : String}
    (h : latestCol sub = some c) :
    ((create_pivot sub).rows).Pairwise
      (fun a b => ∀ x y : ℚ, (create_pivot sub).cell a c = some x →
        (create_pivot sub).cell b c = some y → y ≤ x) := by
  have hp := rows_pairwise_of_latestCol h
  refine List.Pairwise.imp ?_ hp
  intro a b hab x y hax hby
  rw [cell_create_pivot] at hax hby
  unfold rowRel rowLe at hab
  simp only [hax, hby] at hab
  exact of_decide_eq_true hab

theorem create_pivot_missing_last {sub : List Record} {c : String}
    (h : latestCol sub = some c) :
    ((create_pivot sub).rows).Pairwise
      (fun a b => (create_pivot sub).cell a c = none →
        (create_pivot sub).cell b c = none) := by
  have hp := rows_pairwise_of_latestCol h
  refine List.Pairwise.imp ?_ hp
  intro a b hab ha
  rw [cell_create_pivot] at ha ⊢
  rcases hb : pivotCell sub b c with - | y
  · rfl
  · exfalso
    unfold rowRel rowLe at hab
    simp [ha, hb] at hab

/-- C10: when sorting a non-empty table by the most recent present column,
every row whose value there is missing comes after all rows with a value,
the (total) sort raises no error, and values are non-increasing among the
rows that have one. -/
theorem claim_C10_missing_values (parse : String → Option Int)
    (df : List Record) (cs : List String) (e : Int) (c : String) :
    (latestCol (subAll parse df cs e) = some c →
      ((process_and_filter parse df cs e).1.rows).Pairwise
        (fun a b =>
          ((process_and_filter parse df cs e).1.cell a c = none →
            (process_and_filter parse df cs e).1.cell b c = none) ∧
          ∀ x y : ℚ,
            (process_and_filter parse df cs e).1.cell a c = some x →
            (process_and_filter parse df cs e).1.cell b c = some y → y ≤ x)) ∧
    (latestCol (subKison parse df cs e) = some c →
      ((process_and_filter parse df cs e).2.rows).Pairwise
        (fun a b =>
          ((process_and_filter parse df cs e).2.cell a c = none →
            (process_and_filter parse df cs e).2.cell b c = none) ∧
          ∀ x y : ℚ,
            (process_and_filter parse df cs e).2.cell a c = some x →
            (process_and_filter parse df cs e).2.cell b c = some y → y ≤ x)) :=
  ⟨fun h => (create_pivot_missing_last h).and (create_pivot_le_pairwise h),
   fun h => (create_pivot_missing_last h).and (create_pivot_le_pairwise h)⟩

/-- C10 witness: company D has no value in the most recent column and is
placed after company A, which has one. -/
theorem claim_C10_missing_values_witness :
    latestCol (subAll parseMonth
        [⟨"A", "2024-01", "全店", some 100⟩, ⟨"D", "2023-12", "全店", some 99⟩]
        ["A", "D"] 24288) = some "2024-01" ∧
    ((process_and_filter parseMonth
        [⟨"A", "2024-01", "全店", some 100⟩, ⟨"D", "2023-12", "全店", some 99⟩]
        ["A", "D"] 24288).1.rows).Pairwise
      (fun a b =>
        ((process_and_filter parseMonth
          [⟨"A", "2024-01", "全店", some 100⟩, ⟨"D", "2023-12", "全店", some 99⟩]
          ["A", "D"] 24288).1.cell a "2024-01" = none →
          (process_and_filter parseMonth
            [⟨"A", "2024-01", "全店", some 100⟩, ⟨"D", "2023-12", "全店", some 99⟩]
            ["A", "D"] 24288).1.cell b "2024-01" = none) ∧
        ∀ x y : ℚ,
          (process_and_filter parseMonth
            [⟨"A", "2024-01", "全店", some 100⟩, ⟨"D", "2023-12", "全店", some 99⟩]
            ["A", "D"] 24288).1.cell a "2024-01" = some x →
          (process_and_filter parseMonth
            [⟨"A", "2024-01", "全店", some 100⟩, ⟨"D", "2023-12", "全店", some 99⟩]
            ["A", "D"] 24288).1.cell b "2024-01" = some y → y ≤ x) :=
  ⟨rfl,
   (claim_C10_missing_values parseMonth
     [⟨"A", "2024-01", "全店", some 100⟩, ⟨"D", "2023-12", "全店", some 99⟩]
     ["A", "D"] 24288 "2024-01").1 rfl⟩

theorem pivotCell_of_mem {sub : List Record} {a p : String}
    (h : ∃ q ∈ sub, q.company = a ∧ q.period = p) :
    pivotCell sub a p
      = some ((sub.filter
          (fun q => q.company == a && q.period == p)).filterMap Record.yoy).sum := by
  unfold pivotCell
  rcases h with ⟨q, hq, hc, hp⟩
  have hmem : q ∈ sub.filter (fun q => q.company == a && q.period == p) :=
    List.mem_filter.mpr ⟨hq, by simp [hc, hp]⟩
  rw [if_neg]
  simp only [List.isEmpty_iff]
  exact List.ne_nil_of_mem hmem

theorem pivotCell_of_not_mem {sub : List Record} {a p : String}
    (h : ¬ ∃ q ∈ sub, q.company = a ∧ q.period = p) :
    pivotCell sub a p = none := by
  unfold pivotCell
  have hnil : sub.filter (fun q => q.company == a && q.period == p) = [] := by
    refine List.filter_eq_nil_iff.mpr ?_
    intro q hq hb
    simp only [Bool.and_eq_true, beq_iff_eq] at hb
    exact h ⟨q, hq, hb.1, hb.2⟩
  rw [hnil]
  rfl

theorem pivotCell_single {sub : List Record} {a p : String} {r : Record} {v : ℚ}
    (hf : sub.filter (fun q => q.company == a && q.period == p) = [r])
    (hy : r.yoy = some v) :
    pivotCell sub a p = some v := by
  unfold pivotCell
  rw [hf]
  simp [hy]

/-- C4 (amended): each present (company, period) group's cell is the sum of
the group's non-missing metric values — missing values are excluded from
the sum, a single numeric record passes through unchanged, and absent
combinations give a missing cell; but a group whose values are all missing
yields the empty sum `0`, not a missing cell. -/
theorem claim_C4_cell_sum (parse : String → Option Int) (df : List Record)
    (cs : List String) (e : Int) (a p : String) (r : Record) (v : ℚ) :
    ((∃ q ∈ subAll parse df cs e, q.company = a ∧ q.period = p) →
      (process_and_filter parse df cs e).1.cell a p
        = some (((subAll parse df cs e).filter
            (fun q => q.company == a && q.period == p)).filterMap Record.yoy).sum) ∧
    ((¬ ∃ q ∈ subAll parse df cs e, q.company = a ∧ q.period = p) →
      (process_and_filter parse df cs e).1.cell a p = none) ∧
    ((subAll parse df cs e).filter (fun q => q.company == a && q.period == p) = [r] →
      r.yoy = some v → (process_and_filter parse df cs e).1.cell a p = some v) ∧
    ((∃ q ∈ subKison parse df cs e, q.company = a ∧ q.period = p) →
      (process_and_filter parse df cs e).2.cell a p
        = some (((subKison parse df cs e).filter
            (fun q => q.company == a && q.period == p)).filterMap Record.yoy).sum) ∧
    ((¬ ∃ q ∈ subKison parse df cs e, q.company = a ∧ q.period = p) →
      (process_and_filter parse df cs e).2.cell a p = none) ∧
    ((subKison parse df cs e).filter (fun q => q.company == a && q.period == p) = [r] →
      r.yoy = some v → (process_and_filter parse df cs e).2.cell a p = some v) := by
  refine ⟨?_, ?_, ?_, ?_, ?_, ?_⟩
  · intro h
    show (create_pivot (subAll parse df cs e)).cell a p = _
    rw [cell_create_pivot]
    exact pivotCell_of_mem h
  · intro h
    show (create_pivot (subAll parse df cs e)).cell a p = none
    rw [cell_create_pivot]
    exact pivotCell_of_not_mem h
  · intro hf hy
    show (create_pivot (subAll parse df cs e)).cell a p = some v
    rw [cell_create_pivot]
    exact pivotCell_single hf hy
  · intro h
    show (create_pivot (subKison parse df cs e)).cell a p = _
    rw [cell_create_pivot]
    exact pivotCell_of_mem h
  · intro h
    show (create_pivot (subKison parse df cs e)).cell a p = none
    rw [cell_create_pivot]
    exact pivotCell_of_not_mem h
  · intro hf hy
    show (create_pivot (subKison parse df cs e)).cell a p = some v
    rw [cell_create_pivot]
    exact pivotCell_single hf hy

/-- C4 counterexample: a (company, period, scope) group whose only metric
value is missing yields the cell `0` (the sum of the empty value set, as
pandas `sum` does for an all-NaN group), so such a group does yield a `0`
cell, contrary to the claim. -/
theorem claim_C4_counterexample :
    (process_and_filter parseMonth [⟨"A", "2024-01", "全店", none⟩]
        ["A"] 24288).1.cell "A" "2024-01" = some 0 := rfl

/-- C4 witness: a two-record group summed, and a single numeric record
passed through unchanged. -/
theorem claim_C4_cell_sum_witness :
    (process_and_filter parseMonth
        [⟨"A", "2024-01", "全店", some 2⟩, ⟨"A", "2024-01", "全店", some 3⟩,
         ⟨"B", "2024-01", "全店", some 7⟩] ["A", "B"] 24288).1.cell "A" "2024-01"
      = some (((subAll parseMonth
          [⟨"A", "2024-01", "全店", some 2⟩, ⟨"A", "2024-01", "全店", some 3⟩,
           ⟨"B", "2024-01", "全店", some 7⟩] ["A", "B"] 24288).filter
          (fun q => q.company == "A" && q.period == "2024-01")).filterMap
            Record.yoy).sum ∧
    (process_and_filter parseMonth
        [⟨"A", "2024-01", "全店", some 2⟩, ⟨"A", "2024-01", "全店", some 3⟩,
         ⟨"B", "2024-01", "全店", some 7⟩] ["A", "B"] 24288).1.cell "X" "2024-01"
      = none ∧
    (process_and_filter parseMonth
        [⟨"A", "2024-01", "全店", some 2⟩, ⟨"A", "2024-01", "全店", some 3⟩,
         ⟨"B", "2024-01", "全店", some 7⟩] ["A", "B"] 24288).1.cell "B" "2024-01"
      = some 7 :=
  ⟨(claim_C4_cell_sum parseMonth
      [⟨"A", "2024-01", "全店", some 2⟩, ⟨"A", "2024-01", "全店", some 3⟩,
       ⟨"B", "2024-01", "全店", some 7⟩] ["A", "B"] 24288 "A" "2024-01"
      ⟨"B", "2024-01", "全店", some 7⟩ 7).1 (by decide),
   (claim_C4_cell_sum parseMonth
      [⟨"A", "2024-01", "全店", some 2⟩, ⟨"A", "2024-01", "全店", some 3⟩,
       ⟨"B", "2024-01", "全店", some 7⟩] ["A", "B"] 24288 "X" "2024-01"
      ⟨"B", "2024-01", "全店", some 7⟩ 7).2.1 (by decide),
   (claim_C4_cell_sum parseMonth
      [⟨"A", "2024-01", "全店", some 2⟩, ⟨"A", "2024-01", "全店", some 3⟩,
       ⟨"B", "2024-01", "全店", some 7⟩] ["A", "B"] 24288 "B" "2024-01"
      ⟨"B", "2024-01", "全店", some 7⟩ 7).2.2.1 (by decide) rfl⟩

theorem cols_create_pivot_of_latestCol {sub : List Record} {c : String}
    (h : latestCol sub = some c) :
    (create_pivot sub).cols = sortedUnique (sub.map Record.period) := by
  unfold create_pivot
  rw [isEmpty_false_of_latestCol h]
  rfl

/-- C5 (amended): the pivot groups records and keys its columns by the raw
period text, not the parsed calendar month: the columns of each table are
exactly the raw period strings of its contributing records, every
contributing record contributes to the column labelled by its own raw text,
and the sort column is the lexicographically largest raw text present,
which coincides with the chronologically latest month only when all period
texts share one sortable format. -/
theorem claim_C5_raw_text_columns (parse : String → Option Int)
    (df : List Record) (cs : List String) (e : Int) (p c : String) :
    (p ∈ (process_and_filter parse df cs e).1.cols ↔
      ∃ r ∈ subAll parse df cs e, r.period = p) ∧
    (∀ r ∈ subAll parse df cs e,
      (process_and_filter parse df cs e).1.cell r.company r.period ≠ none) ∧
    (latestCol (subAll parse df cs e) = some c →
      c ∈ (process_and_filter parse df cs e).1.cols ∧
      ∀ q ∈ (process_and_filter parse df cs e).1.cols, strLe q c) ∧
    (p ∈ (process_and_filter parse df cs e).2.cols ↔
      ∃ r ∈ subKison parse df cs e, r.period = p) ∧
    (∀ r ∈ subKison parse df cs e,
      (process_and_filter parse df cs e).2.cell r.company r.period ≠ none) ∧
    (latestCol (subKison parse df cs e) = some c →
      c ∈ (process_and_filter parse df cs e).2.cols ∧
      ∀ q ∈ (process_and_filter parse df cs e).2.cols, strLe q c) := by
  refine ⟨?_, ?_, ?_, ?_, ?_, ?_⟩
  · exact mem_cols_create_pivot
  · intro r hr
    show (create_pivot (subAll parse df cs e)).cell r.company r.period ≠ none
    rw [cell_create_pivot, pivotCell_of_mem ⟨r, hr, rfl, rfl⟩]
    simp
  · intro h
    have hcols : (process_and_filter parse df cs e).1.cols
        = sortedUnique ((subAll parse df cs e).map Record.period) :=
      cols_create_pivot_of_latestCol h
    rw [hcols]
    exact latestCol_spec h
  · exact mem_cols_create_pivot
  · intro r hr
    show (create_pivot (subKison parse df cs e)).cell r.company r.period ≠ none
    rw [cell_create_pivot, pivotCell_of_mem ⟨r, hr, rfl, rfl⟩]
    simp
  · intro h
    have hcols : (process_and_filter parse df cs e).2.cols
        = sortedUnique ((subKison parse df cs e).map Record.period) :=
      cols_create_pivot_of_latestCol h
    rw [hcols]
    exact latestCol_spec h

/-- C5 counterexample: the raw texts `2024-1` and `2024-01` denote the same
calendar month (they parse identically), yet the pivot puts the two records
into two distinct columns — the pivot keys columns by raw text, not by the
parsed month. -/
theorem claim_C5_counterexample :
    parseMonth "2024-1" = parseMonth "2024-01" ∧
    (process_and_filter parseMonth
        [⟨"A", "2024-1", "全店", some 100⟩, ⟨"B", "2024-01", "全店", some 90⟩]
        ["A", "B"] 24288).1.cols = ["2024-01", "2024-1"] :=
  ⟨rfl, rfl⟩

/-- C5 witness: column membership and the lexicographic-maximum sort column
at a concrete input. -/
theorem claim_C5_raw_text_columns_witness :
    ("2024-01" ∈ (process_and_filter parseMonth
        [⟨"A", "2024-01", "全店", some 100⟩] ["A"] 24288).1.cols ↔
      ∃ r ∈ subAll parseMonth
        [⟨"A", "2024-01", "全店", some 100⟩] ["A"] 24288, r.period = "2024-01") ∧
    ("2024-01" ∈ (process_and_filter parseMonth
        [⟨"A", "2024-01", "全店", some 100⟩] ["A"] 24288).1.cols ∧
      ∀ q ∈ (process_and_filter parseMonth
        [⟨"A", "2024-01", "全店", some 100⟩] ["A"] 24288).1.cols,
        strLe q "2024-01") :=
  ⟨(claim_C5_raw_text_columns parseMonth [⟨"A", "2024-01", "全店", some 100⟩]
      ["A"] 24288 "2024-01" "2024-01").1,
   (claim_C5_raw_text_columns parseMonth [⟨"A", "2024-01", "全店", some 100⟩]
      ["A"] 24288 "2024-01" "2024-01").2.2.1 rfl⟩

/-- C9 (code bug): with the data directory absent, or present without any
spreadsheet, `load_latest_data` returns `None` and the pipeline is never
invoked; but the module-level else branch then evaluates an f-string
referencing `file_path_input` — a name bound nowhere in app.py — so the
path raises `NameError` instead of displaying the notice. -/
theorem claim_C9_missing_data :
    load_latest_data false [] (fun _ => []) = none ∧
    load_latest_data true [] (fun _ => []) = none ∧
    main_flow none ["A"] 24288
      = Except.error "NameError: name file_path_input is not defined" :=
  ⟨rfl, rfl, rfl⟩
